import Mathlib

/-!
Shallow embedding of the subscriber registry and event broadcast core of the
tic-tac-toe repository (package `events`, file `src/events/eventhandler.go`,
with an identical legacy copy in `src/handlers/home.go`).

Modelling conventions:
* The Go global `gameSubscribers : map[string][]*GameSubscriber` is an
  association list from game id to the ordered slice of subscribers.
* A Go buffered channel `make(chan GameEvent, 10)` is a `BufChan`: a fixed
  capacity plus the FIFO list of buffered, not yet consumed elements.  Since
  subscribers hold their channels by reference, channel contents live in a
  separate heap `channels`, keyed by the (unique) subscriber id, so that the
  registry component itself is a faithful image of the Go map.
* `close(sub.Channel)` is recorded by appending the subscriber id to
  `closeLog`; counting occurrences expresses "closed exactly once".
* `ctx.Done()` readiness at call time is an environment `done : String → Bool`
  indexed by subscriber id (each subscriber carries the context of the
  connection that registered it).
* Go's `select` chooses uniformly at random among the ready cases and runs
  `default` only when none is ready.  The random choice between a ready send
  and a ready `Done` receive is resolved by an explicit boolean oracle
  (`pickSend`, resp. `choice i` for the i-th subscriber of a broadcast).
* `go RemoveGameSubscriber(subscriber)` only schedules the removal: broadcast
  returns the list of subscribers whose deregistration was spawned, to be run
  after the call.
* `crypto/rand` subscriber-id generation is modelled by passing the fresh id
  as an argument.
-/

namespace GameEvents

/-- Subscriber record of `models.GameSubscriber`: the immutable fields `ID` and
`GameID`; the `Channel` contents live in the state's channel heap keyed by
`ID`, and the `Context` done-ness is the broadcast-time environment. -/
structure GameSubscriber where
  ID : String
  GameID : String
deriving DecidableEq

/-- Bounded FIFO buffer of a Go channel `make(chan _, capacity)`: the fixed
capacity and the queued, undelivered elements in arrival order. -/
structure BufChan (ε : Type) where
  capacity : Nat
  buffer : List ε
deriving DecidableEq

/-- Whole-core state: the registry map `gameSubscribers`, the heap of channel
buffers keyed by subscriber id, and the log of channel closes. -/
structure EventsState (ε : Type) where
  gameSubscribers : List (String × List GameSubscriber)
  channels : List (String × BufChan ε)
  closeLog : List String
deriving DecidableEq

/-- Lookup in an association list, as a Go map read (`m[k]`). -/
def lookupKey {β : Type} : List (String × β) → String → Option β
  | [], _ => none
  | (k, v) :: rest, key => if k = key then some v else lookupKey rest key

/-- Update in an association list, as a Go map write (`m[k] = v`): replaces the
first binding of the key, appends a binding when the key is absent. -/
def setKey {β : Type} : List (String × β) → String → β → List (String × β)
  | [], key, v => [(key, v)]
  | (k, w) :: rest, key, v =>
    if k = key then (key, v) :: rest else (k, w) :: setKey rest key v

/-- Deletion from an association list, as Go `delete(m, k)`. -/
def eraseKey {β : Type} : List (String × β) → String → List (String × β)
  | [], _ => []
  | (k, w) :: rest, key =>
    if k = key then eraseKey rest key else (k, w) :: eraseKey rest key

/-- Initial state: the empty registry, no channels, no closes. -/
def emptyEventsState (ε : Type) : EventsState ε :=
  { gameSubscribers := [], channels := [], closeLog := [] }

/-- Registry read used by the broadcaster and exposed to callers (the spec's
`SubscribersFor`): the session's subscriber list, empty when the key is
absent — a Go map read with the zero value as default. -/
def SubscribersFor {ε : Type} (st : EventsState ε) (gameID : String) :
    List GameSubscriber :=
  (lookupKey st.gameSubscribers gameID).getD []

/-- Embedding of `CreateGameSubscriber` (eventhandler.go lines 22-33): builds
the subscriber with the fresh id `newID`, a channel of capacity 10, and
appends it to the session's slice (creating the binding when absent). -/
def CreateGameSubscriber {ε : Type} (gameID : String) (newID : String)
    (st : EventsState ε) : GameSubscriber × EventsState ε :=
  let subscriber : GameSubscriber := { ID := newID, GameID := gameID }
  ( subscriber,
    { st with
      gameSubscribers :=
        setKey st.gameSubscribers gameID
          (((lookupKey st.gameSubscribers gameID).getD []) ++ [subscriber]),
      channels := setKey st.channels newID { capacity := 10, buffer := [] } } )

/-- Removal of the first slice element whose `ID` matches, as the loop of
`RemoveGameSubscriber` with its `break`; `none` when no element matches. -/
def removeFirstByID (id : String) : List GameSubscriber →
    Option (List GameSubscriber)
  | [] => none
  | s :: rest =>
    if s.ID = id then some rest
    else (removeFirstByID id rest).map (fun r => s :: r)

/-- Embedding of `RemoveGameSubscriber` (eventhandler.go lines 36-53): early
return when the session key is absent; otherwise remove the first subscriber
with the matching id and close its channel (logged); finally delete the
session key when the resulting slice is empty. -/
def RemoveGameSubscriber {ε : Type} (subscriber : GameSubscriber)
    (st : EventsState ε) : EventsState ε :=
  match lookupKey st.gameSubscribers subscriber.GameID with
  | none => st
  | some subscribers =>
    match removeFirstByID subscriber.ID subscribers with
    | none =>
      if subscribers.length = 0 then
        { st with gameSubscribers := eraseKey st.gameSubscribers subscriber.GameID }
      else st
    | some remaining =>
      let st1 : EventsState ε :=
        { st with
          gameSubscribers := setKey st.gameSubscribers subscriber.GameID remaining,
          closeLog := st.closeLog ++ [subscriber.ID] }
      if remaining.length = 0 then
        { st1 with gameSubscribers := eraseKey st1.gameSubscribers subscriber.GameID }
      else st1

/-- One `select` attempt of the broadcast loop (eventhandler.go lines 64-70)
on one subscriber's channel: the send case is ready when the buffer has free
capacity, the `Done` receive case is ready when the context has fired; when
both are ready Go picks uniformly at random, resolved here by `pickSend`; the
`default` case (silent drop) runs only when neither is ready.  Returns the
channel afterwards and whether `go RemoveGameSubscriber` was spawned. -/
def selectStep {ε : Type} (pickSend : Bool) (ctxDone : Bool) (event : ε)
    (ch : BufChan ε) : BufChan ε × Bool :=
  if ch.buffer.length < ch.capacity ∧ ctxDone then
    if pickSend then ({ ch with buffer := ch.buffer ++ [event] }, false)
    else (ch, true)
  else if ch.buffer.length < ch.capacity then
    ({ ch with buffer := ch.buffer ++ [event] }, false)
  else if ctxDone then (ch, true)
  else (ch, false)

/-- Fan-out loop of `BroadcastGameEvent` (eventhandler.go lines 63-71) over the
snapshot `subs` of the session's slice, the i-th subscriber's select resolved
by `choice (n + i)`; accumulates the subscribers whose asynchronous removal
was spawned.  A subscriber without a channel entry is unreachable from the
operations of this file and is passed over. -/
def broadcastLoop {ε : Type} (choice : Nat → Bool) (done : String → Bool)
    (event : ε) :
    List GameSubscriber → Nat → EventsState ε → List GameSubscriber →
      EventsState ε × List GameSubscriber
  | [], _, st, pending => (st, pending)
  | subscriber :: rest, n, st, pending =>
    match lookupKey st.channels subscriber.ID with
    | none => broadcastLoop choice done event rest (n + 1) st pending
    | some ch =>
      broadcastLoop choice done event rest (n + 1)
        { st with channels := (setKey st.channels subscriber.ID
            (selectStep (choice n) (done subscriber.ID) event ch).1) }
        (if (selectStep (choice n) (done subscriber.ID) event ch).2 then
          pending ++ [subscriber] else pending)

/-- Embedding of `BroadcastGameEvent` (eventhandler.go lines 56-72): early
return when the session key is absent, otherwise the non-blocking fan-out;
also returns the subscribers whose deregistration was spawned. -/
def BroadcastGameEvent {ε : Type} (choice : Nat → Bool) (done : String → Bool)
    (gameID : String) (event : ε) (st : EventsState ε) :
    EventsState ε × List GameSubscriber :=
  match lookupKey st.gameSubscribers gameID with
  | none => (st, [])
  | some subscribers => broadcastLoop choice done event subscribers 0 st []

/-- Event record of `models.GameEvent` with fields `Type` (here `EventType`,
since `Type` is reserved in Lean), `GameID` and `Data`. -/
structure GameEvent (δ : Type) where
  EventType : String
  GameID : String
  Data : δ
deriving DecidableEq

/-- Payload `map[string]interface{}{"gameID": gameID, "game": game}` built by
`BroadcastPersonalizedGameStatus`. -/
structure StatusData (γ : Type) where
  gameID : String
  game : γ
deriving DecidableEq

/-- Fan-out loop of `BroadcastPersonalizedGameStatus` (eventhandler.go lines
85-102): identical to `broadcastLoop` except that the event is constructed
inside the loop body, the same value for every subscriber. -/
def personalizedLoop {γ : Type} (choice : Nat → Bool) (done : String → Bool)
    (gameID : String) (game : γ) :
    List GameSubscriber → Nat → EventsState (GameEvent (StatusData γ)) →
      List GameSubscriber →
      EventsState (GameEvent (StatusData γ)) × List GameSubscriber
  | [], _, st, pending => (st, pending)
  | subscriber :: rest, n, st, pending =>
    match lookupKey st.channels subscriber.ID with
    | none => personalizedLoop choice done gameID game rest (n + 1) st pending
    | some ch =>
      personalizedLoop choice done gameID game rest (n + 1)
        { st with channels := (setKey st.channels subscriber.ID
            (selectStep (choice n) (done subscriber.ID)
              { EventType := "game_status", GameID := gameID,
                Data := { gameID := gameID, game := game } } ch).1) }
        (if (selectStep (choice n) (done subscriber.ID)
            { EventType := "game_status", GameID := gameID,
              Data := { gameID := gameID, game := game } } ch).2 then
          pending ++ [subscriber] else pending)

/-- Embedding of `BroadcastPersonalizedGameStatus` (eventhandler.go lines
75-103): early return when the session key is absent, otherwise the fan-out
of the per-subscriber "game_status" snapshot event. -/
def BroadcastPersonalizedGameStatus {γ : Type} (choice : Nat → Bool)
    (done : String → Bool) (gameID : String) (game : γ)
    (st : EventsState (GameEvent (StatusData γ))) :
    EventsState (GameEvent (StatusData γ)) × List GameSubscriber :=
  match lookupKey st.gameSubscribers gameID with
  | none => (st, [])
  | some subscribers => personalizedLoop choice done gameID game subscribers 0 st []

/-- One call into the core: registration, deregistration, or a broadcast with
its select choices and context environment. -/
inductive SysOp (ε : Type) where
  | register (gameID newID : String)
  | deregister (subscriber : GameSubscriber)
  | broadcast (choice : Nat → Bool) (done : String → Bool)
      (gameID : String) (event : ε)

/-- Effect of one call on the state (a broadcast's spawned removals are
separate later calls, as in the Go code). -/
def applySysOp {ε : Type} : SysOp ε → EventsState ε → EventsState ε
  | .register gameID newID, st => (CreateGameSubscriber gameID newID st).2
  | .deregister subscriber, st => RemoveGameSubscriber subscriber st
  | .broadcast choice done gameID event, st =>
      (BroadcastGameEvent choice done gameID event st).1

/-- State after a finite sequence of calls from the initial state. -/
def runSysOps {ε : Type} (ops : List (SysOp ε)) : EventsState ε :=
  ops.foldl (fun st op => applySysOp op st) (emptyEventsState ε)

/-- Registration and deregistration calls, the operations of claim C3. -/
def isRegistryOp {ε : Type} : SysOp ε → Bool
  | .register _ _ => true
  | .deregister _ => true
  | .broadcast _ _ _ _ => false

/-! Helper lemmas about the association-list operations. -/

theorem lookupKey_setKey_self {β : Type} (l : List (String × β)) (k : String)
    (v : β) : lookupKey (setKey l k v) k = some v := by
  induction l with
  | nil => simp [setKey, lookupKey]
  | cons p rest ih =>
    obtain ⟨k1, v1⟩ := p
    by_cases h : k1 = k
    · simp [setKey, h, lookupKey]
    · simp [setKey, h, lookupKey, ih]

theorem lookupKey_setKey_ne {β : Type} (l : List (String × β)) (k key : String)
    (v : β) (h : key ≠ k) : lookupKey (setKey l k v) key = lookupKey l key := by
  induction l with
  | nil => simp [setKey, lookupKey, Ne.symm h]
  | cons p rest ih =>
    obtain ⟨k1, v1⟩ := p
    by_cases h1 : k1 = k
    · subst h1
      simp [setKey, lookupKey, Ne.symm h]
    · simp only [setKey, h1, if_false, lookupKey]
      by_cases h2 : k1 = key <;> simp [h2, ih]

theorem mem_setKey {β : Type} (l : List (String × β)) (k : String) (v : β)
    (p : String × β) (hp : p ∈ setKey l k v) : p ∈ l ∨ p = (k, v) := by
  induction l with
  | nil => simpa [setKey] using hp
  | cons q rest ih =>
    obtain ⟨k1, v1⟩ := q
    by_cases h : k1 = k
    · simp only [setKey, h, if_true] at hp
      rcases List.mem_cons.mp hp with h1 | h1
      · exact Or.inr h1
      · exact Or.inl (List.mem_cons_of_mem _ h1)
    · simp only [setKey, h, if_false] at hp
      rcases List.mem_cons.mp hp with h1 | h1
      · exact Or.inl (h1 ▸ List.mem_cons_self _ _)
      · rcases ih h1 with h2 | h2
        · exact Or.inl (List.mem_cons_of_mem _ h2)
        · exact Or.inr h2

theorem mem_eraseKey {β : Type} (l : List (String × β)) (k : String)
    (p : String × β) (hp : p ∈ eraseKey l k) : p ∈ l ∧ p.1 ≠ k := by
  induction l with
  | nil => simp [eraseKey] at hp
  | cons q rest ih =>
    obtain ⟨k1, v1⟩ := q
    by_cases h : k1 = k
    · simp only [eraseKey, h, if_true] at hp
      exact ⟨List.mem_cons_of_mem _ (ih hp).1, (ih hp).2⟩
    · simp only [eraseKey, h, if_false] at hp
      rcases List.mem_cons.mp hp with h1 | h1
      · subst h1
        exact ⟨List.mem_cons_self _ _, h⟩
      · exact ⟨List.mem_cons_of_mem _ (ih h1).1, (ih h1).2⟩

theorem lookupKey_mem {β : Type} (l : List (String × β)) (k : String) (v : β)
    (h : lookupKey l k = some v) : (k, v) ∈ l := by
  induction l with
  | nil => simp [lookupKey] at h
  | cons q rest ih =>
    obtain ⟨k1, v1⟩ := q
    by_cases h1 : k1 = k
    · subst h1
      simp only [lookupKey, if_true] at h
      cases h
      exact List.mem_cons_self _ _
    · simp only [lookupKey, h1, if_false] at h
      exact List.mem_cons_of_mem _ (ih h)

/-! Frame lemmas for the broadcast fan-out loops. -/

theorem broadcastLoop_fst_gameSubscribers {ε : Type} (choice : Nat → Bool)
    (done : String → Bool) (event : ε) (subs : List GameSubscriber) :
    ∀ (n : Nat) (st : EventsState ε) (pending : List GameSubscriber),
      (broadcastLoop choice done event subs n st pending).1.gameSubscribers
        = st.gameSubscribers := by
  induction subs with
  | nil => intro n st pending; rfl
  | cons sub rest ih =>
    intro n st pending
    rw [broadcastLoop]
    split
    · exact ih (n + 1) st pending
    · exact ih (n + 1) _ _

theorem broadcastLoop_fst_closeLog {ε : Type} (choice : Nat → Bool)
    (done : String → Bool) (event : ε) (subs : List GameSubscriber) :
    ∀ (n : Nat) (st : EventsState ε) (pending : List GameSubscriber),
      (broadcastLoop choice done event subs n st pending).1.closeLog
        = st.closeLog := by
  induction subs with
  | nil => intro n st pending; rfl
  | cons sub rest ih =>
    intro n st pending
    rw [broadcastLoop]
    split
    · exact ih (n + 1) st pending
    · exact ih (n + 1) _ _

theorem broadcastLoop_channels_notin {ε : Type} (choice : Nat → Bool)
    (done : String → Bool) (event : ε) (subs : List GameSubscriber)
    (id : String) (hid : id ∉ subs.map GameSubscriber.ID) :
    ∀ (n : Nat) (st : EventsState ε) (pending : List GameSubscriber),
      lookupKey (broadcastLoop choice done event subs n st pending).1.channels id
        = lookupKey st.channels id := by
  induction subs with
  | nil => intro n st pending; rfl
  | cons sub rest ih =>
    have hne : id ≠ sub.ID := by
      intro h
      exact hid (by simp [h])
    have hrest : id ∉ rest.map GameSubscriber.ID := by
      intro h
      exact hid (by simp [h])
    intro n st pending
    rw [broadcastLoop]
    split
    · exact ih hrest (n + 1) st pending
    · rw [ih hrest (n + 1) _ _]
      exact lookupKey_setKey_ne _ _ _ _ hne

theorem broadcastLoop_snd_append {ε : Type} (choice : Nat → Bool)
    (done : String → Bool) (event : ε) (subs : List GameSubscriber) :
    ∀ (n : Nat) (st : EventsState ε) (pending : List GameSubscriber),
      (broadcastLoop choice done event subs n st pending).2
        = pending ++ (broadcastLoop choice done event subs n st []).2 := by
  induction subs with
  | nil => intro n st pending; simp [broadcastLoop]
  | cons sub rest ih =>
    intro n st pending
    rw [broadcastLoop, broadcastLoop]
    split
    · exact ih (n + 1) st pending
    · rename_i ch hch
      by_cases hr : (selectStep (choice n) (done sub.ID) event ch).2
      · simp only [hr, if_true, List.nil_append]
        rw [ih (n + 1) _ (pending ++ [sub]), ih (n + 1) _ [sub]]
        simp
      · simp only [hr, if_false]
        exact ih (n + 1) _ pending

theorem broadcastLoop_snd_subset {ε : Type} (choice : Nat → Bool)
    (done : String → Bool) (event : ε) (subs : List GameSubscriber) :
    ∀ (n : Nat) (st : EventsState ε) (pending : List GameSubscriber)
      (q : GameSubscriber),
      q ∈ (broadcastLoop choice done event subs n st pending).2 →
        q ∈ pending ∨ q ∈ subs := by
  induction subs with
  | nil =>
    intro n st pending q hq
    exact Or.inl (by simpa [broadcastLoop] using hq)
  | cons sub rest ih =>
    intro n st pending q hq
    rw [broadcastLoop] at hq
    rcases hst : lookupKey st.channels sub.ID with _ | ch
    · rw [hst] at hq
      rcases ih (n + 1) st pending q hq with h | h
      · exact Or.inl h
      · exact Or.inr (List.mem_cons_of_mem _ h)
    · rw [hst] at hq
      rcases ih (n + 1) _ _ q hq with h | h
      · by_cases hr : (selectStep (choice n) (done sub.ID) event ch).2
        · simp only [hr, if_true] at h
          rcases List.mem_append.mp h with h1 | h1
          · exact Or.inl h1
          · simp only [List.mem_singleton] at h1
            exact Or.inr (h1 ▸ List.mem_cons_self _ _)
        · simp only [hr, if_false] at h
          exact Or.inl h
      · exact Or.inr (List.mem_cons_of_mem _ h)

/-- Per-subscriber result of one fan-out: under distinct subscriber ids, the
i-th subscriber's channel afterwards is exactly one `selectStep` applied to
its channel as found at entry, and it joins the spawned-removal list exactly
when that select resolved to the cancellation case. -/
theorem broadcastLoop_get {ε : Type} (choice : Nat → Bool)
    (done : String → Bool) (event : ε) (subs : List GameSubscriber) :
    ∀ (hnd : (subs.map GameSubscriber.ID).Nodup) (i : Nat)
      (sub : GameSubscriber) (hsub : subs[i]? = some sub) (n : Nat)
      (st : EventsState ε) (pending : List GameSubscriber) (ch : BufChan ε)
      (hch : lookupKey st.channels sub.ID = some ch),
      lookupKey (broadcastLoop choice done event subs n st pending).1.channels
          sub.ID
        = some (selectStep (choice (n + i)) (done sub.ID) event ch).1
      ∧ (sub ∈ (broadcastLoop choice done event subs n st pending).2 ↔
          sub ∈ pending
            ∨ (selectStep (choice (n + i)) (done sub.ID) event ch).2 = true) := by
  induction subs with
  | nil => intro _ i sub hsub; simp at hsub
  | cons head rest ih =>
    intro hnd i sub hsub n st pending ch hch
    have hndrest : (rest.map GameSubscriber.ID).Nodup :=
      (List.nodup_cons.mp hnd).2
    have hhead : head.ID ∉ rest.map GameSubscriber.ID :=
      (List.nodup_cons.mp hnd).1
    cases i with
    | zero =>
      have heq : head = sub := by simpa using hsub
      subst heq
      simp only [Nat.add_zero]
      simp only [broadcastLoop, hch]
      constructor
      · rw [broadcastLoop_channels_notin choice done event rest head.ID hhead]
        exact lookupKey_setKey_self _ _ _
      · rw [broadcastLoop_snd_append]
        have hnotin : head ∉ (broadcastLoop choice done event rest (n + 1)
            { st with channels := (setKey st.channels head.ID
                (selectStep (choice n) (done head.ID) event ch).1) } []).2 := by
          intro hmem
          rcases broadcastLoop_snd_subset choice done event rest (n + 1) _ [] head
              hmem with h | h
          · simp at h
          · exact hhead (List.mem_map.mpr ⟨head, h, rfl⟩)
        by_cases hr : (selectStep (choice n) (done head.ID) event ch).2
        · simp [hr, hnotin, List.mem_append]
        · simp [hr, hnotin, List.mem_append]
    | succ j =>
      simp only [List.getElem?_cons_succ] at hsub
      have hmemrest : sub ∈ rest := List.getElem?_mem hsub
      have hne : sub.ID ≠ head.ID := by
        intro h
        exact hhead (h ▸ List.mem_map.mpr ⟨sub, hmemrest, rfl⟩)
      rcases hst : lookupKey st.channels head.ID with _ | ch0
      · simp only [broadcastLoop, hst]
        have := ih hndrest j sub hsub (n + 1) st pending ch hch
        rw [(by omega : n + 1 + j = n + (j + 1))] at this
        exact this
      · simp only [broadcastLoop, hst]
        have hch1 : lookupKey
            (setKey st.channels head.ID
              (selectStep (choice n) (done head.ID) event ch0).1) sub.ID
            = some ch := by
          rw [lookupKey_setKey_ne _ _ _ _ hne]
          exact hch
        have := ih hndrest j sub hsub (n + 1)
          { st with channels := (setKey st.channels head.ID
              (selectStep (choice n) (done head.ID) event ch0).1) }
          (if (selectStep (choice n) (done head.ID) event ch0).2 then
            pending ++ [head] else pending) ch hch1
        rw [(by omega : n + 1 + j = n + (j + 1))] at this
        refine ⟨this.1, ?_⟩
        rw [this.2]
        have hsubhead : head ≠ sub := fun h => hne (h ▸ rfl)
        by_cases hr : (selectStep (choice n) (done head.ID) event ch0).2
        · simp only [hr, if_true, List.mem_append, List.mem_singleton]
          constructor
          · rintro (⟨h1 | h1⟩ | h1)
            · exact Or.inl h1
            · exact absurd h1.symm hsubhead
            · exact Or.inr h1
          · rintro (h1 | h1)
            · exact Or.inl (Or.inl h1)
            · exact Or.inr h1
        · simp [hr]

/-! Invariants: channel capacity bound and registry consistency. -/

/-- Well-formed channel: created with capacity 10 and never holding more than
its capacity in undelivered events. -/
def chanOK {ε : Type} (ch : BufChan ε) : Prop :=
  ch.capacity = 10 ∧ ch.buffer.length ≤ ch.capacity

/-- Every channel of the state is well-formed. -/
def channelsOK {ε : Type} (st : EventsState ε) : Prop :=
  ∀ p ∈ st.channels, chanOK p.2

/-- Registry consistency: every binding of the table carries a non-empty
subscriber slice. -/
def registryOK {ε : Type} (st : EventsState ε) : Prop :=
  ∀ p ∈ st.gameSubscribers, p.2 ≠ []

theorem selectStep_capacity {ε : Type} (pick d : Bool) (event : ε)
    (ch : BufChan ε) : (selectStep pick d event ch).1.capacity = ch.capacity := by
  unfold selectStep
  split_ifs <;> rfl

theorem selectStep_length {ε : Type} (pick d : Bool) (event : ε)
    (ch : BufChan ε) (h : ch.buffer.length ≤ ch.capacity) :
    (selectStep pick d event ch).1.buffer.length ≤ ch.capacity := by
  unfold selectStep
  split_ifs <;> simp_all <;> omega

theorem broadcastLoop_channelsOK {ε : Type} (choice : Nat → Bool)
    (done : String → Bool) (event : ε) (subs : List GameSubscriber) :
    ∀ (n : Nat) (st : EventsState ε) (pending : List GameSubscriber),
      channelsOK st →
        channelsOK (broadcastLoop choice done event subs n st pending).1 := by
  induction subs with
  | nil => intro n st pending h; exact h
  | cons sub rest ih =>
    intro n st pending h
    rw [broadcastLoop]
    rcases hst : lookupKey st.channels sub.ID with _ | ch
    · exact ih (n + 1) st pending h
    · refine ih (n + 1) _ _ ?_
      intro p hp
      rcases mem_setKey _ _ _ _ hp with h1 | h1
      · exact h p h1
      · have hchOK : chanOK ch := h (sub.ID, ch) (lookupKey_mem _ _ _ hst)
        subst h1
        refine ⟨?_, ?_⟩
        · rw [selectStep_capacity]
          exact hchOK.1
        · rw [selectStep_capacity]
          exact selectStep_length _ _ _ _ hchOK.2

theorem CreateGameSubscriber_channelsOK {ε : Type} (gameID newID : String)
    (st : EventsState ε) (h : channelsOK st) :
    channelsOK (CreateGameSubscriber gameID newID st).2 := by
  intro p hp
  rcases mem_setKey _ _ _ _ hp with h1 | h1
  · exact h p h1
  · subst h1
    exact ⟨rfl, by simp [chanOK]⟩

theorem CreateGameSubscriber_registryOK {ε : Type} (gameID newID : String)
    (st : EventsState ε) (h : registryOK st) :
    registryOK (CreateGameSubscriber gameID newID st).2 := by
  intro p hp
  rcases mem_setKey _ _ _ _ hp with h1 | h1
  · exact h p h1
  · subst h1
    simp

theorem RemoveGameSubscriber_channels {ε : Type} (subscriber : GameSubscriber)
    (st : EventsState ε) :
    (RemoveGameSubscriber subscriber st).channels = st.channels := by
  unfold RemoveGameSubscriber
  split
  · rfl
  · split
    · split <;> rfl
    · split <;> rfl

theorem RemoveGameSubscriber_registryOK {ε : Type} (subscriber : GameSubscriber)
    (st : EventsState ε) (h : registryOK st) :
    registryOK (RemoveGameSubscriber subscriber st) := by
  unfold RemoveGameSubscriber
  split
  · exact h
  · rename_i subscribers hlk
    split
    · split
      · intro p hp
        exact h p (mem_eraseKey _ _ _ hp).1
      · exact h
    · rename_i remaining hrem
      split
      · intro p hp
        have h1 := mem_eraseKey _ _ _ hp
        rcases mem_setKey _ _ _ _ h1.1 with h2 | h2
        · exact h p h2
        · exact absurd (congrArg Prod.fst h2) h1.2
      · rename_i hlen
        intro p hp
        rcases mem_setKey _ _ _ _ hp with h2 | h2
        · exact h p h2
        · subst h2
          simpa using fun hnil => hlen (by simp [hnil])

theorem BroadcastGameEvent_fst_gameSubscribers {ε : Type} (choice : Nat → Bool)
    (done : String → Bool) (gameID : String) (event : ε) (st : EventsState ε) :
    (BroadcastGameEvent choice done gameID event st).1.gameSubscribers
      = st.gameSubscribers := by
  unfold BroadcastGameEvent
  split
  · rfl
  · exact broadcastLoop_fst_gameSubscribers _ _ _ _ _ _ _

theorem BroadcastGameEvent_fst_closeLog {ε : Type} (choice : Nat → Bool)
    (done : String → Bool) (gameID : String) (event : ε) (st : EventsState ε) :
    (BroadcastGameEvent choice done gameID event st).1.closeLog
      = st.closeLog := by
  unfold BroadcastGameEvent
  split
  · rfl
  · exact broadcastLoop_fst_closeLog _ _ _ _ _ _ _

theorem BroadcastGameEvent_channelsOK {ε : Type} (choice : Nat → Bool)
    (done : String → Bool) (gameID : String) (event : ε) (st : EventsState ε)
    (h : channelsOK st) :
    channelsOK (BroadcastGameEvent choice done gameID event st).1 := by
  unfold BroadcastGameEvent
  split
  · exact h
  · exact broadcastLoop_channelsOK _ _ _ _ _ _ _ h

theorem runSysOps_channelsOK {ε : Type} (ops : List (SysOp ε)) :
    channelsOK (runSysOps ops) := by
  suffices h : ∀ (st : EventsState ε), channelsOK st →
      channelsOK (ops.foldl (fun st op => applySysOp op st) st) by
    exact h _ (by intro p hp; simp [emptyEventsState] at hp)
  induction ops with
  | nil => intro st h; exact h
  | cons op rest ih =>
    intro st h
    refine ih _ ?_
    cases op with
    | register gameID newID => exact CreateGameSubscriber_channelsOK _ _ _ h
    | deregister subscriber =>
      intro p hp
      have heq : ((fun st op => applySysOp op st) st
            (SysOp.deregister subscriber)).channels = st.channels :=
        RemoveGameSubscriber_channels _ _
      rw [heq] at hp
      exact h p hp
    | broadcast choice done gameID event =>
      exact BroadcastGameEvent_channelsOK _ _ _ _ _ h

/-- Case analysis of one select attempt: either the event was enqueued (only
possible with free capacity), or deregistration was scheduled and delivery
skipped (only possible with the cancellation signal fired), or the event was
silently dropped (only when the queue is full and the signal has not fired). -/
theorem selectStep_cases {ε : Type} (pick d : Bool) (event : ε)
    (ch : BufChan ε) :
    (ch.buffer.length < ch.capacity ∧
        selectStep pick d event ch
          = ({ ch with buffer := ch.buffer ++ [event] }, false))
    ∨ (d = true ∧ selectStep pick d event ch = (ch, true))
    ∨ (¬ ch.buffer.length < ch.capacity ∧ d = false ∧
        selectStep pick d event ch = (ch, false)) := by
  unfold selectStep
  by_cases hs : ch.buffer.length < ch.capacity <;> cases d <;> cases pick <;>
    simp [hs]

/-- When the cancellation signal has fired and the queue is full, the select
can only resolve to the cancellation case. -/
theorem selectStep_done_full {ε : Type} (pick : Bool) (event : ε)
    (ch : BufChan ε) (hs : ¬ ch.buffer.length < ch.capacity) :
    selectStep pick true event ch = (ch, true) := by
  unfold selectStep
  simp [hs]

theorem removeFirstByID_eq_none (id : String) (subs : List GameSubscriber)
    (h : id ∉ subs.map GameSubscriber.ID) :
    removeFirstByID id subs = none := by
  induction subs with
  | nil => rfl
  | cons sub rest ih =>
    have hne : sub.ID ≠ id := by
      intro he
      exact h (by simp [he])
    have hrest : id ∉ rest.map GameSubscriber.ID := by
      intro he
      exact h (by simp [he])
    simp [removeFirstByID, hne, ih hrest]

theorem personalizedLoop_eq_broadcastLoop {γ : Type} (choice : Nat → Bool)
    (done : String → Bool) (gameID : String) (game : γ)
    (subs : List GameSubscriber) :
    ∀ (n : Nat) (st : EventsState (GameEvent (StatusData γ)))
      (pending : List GameSubscriber),
      personalizedLoop choice done gameID game subs n st pending
        = broadcastLoop choice done
            { EventType := "game_status", GameID := gameID,
              Data := { gameID := gameID, game := game } }
            subs n st pending := by
  induction subs with
  | nil => intro n st pending; rfl
  | cons sub rest ih =>
    intro n st pending
    rw [personalizedLoop, broadcastLoop]
    rcases hst : lookupKey st.channels sub.ID with _ | ch
    · exact ih (n + 1) st pending
    · exact ih (n + 1) _ _

/-- Pointwise agreement of the two broadcast entry points: the personalized
variant is the plain broadcast of one fixed "game_status" snapshot event. -/
theorem BroadcastPersonalized_eq {γ : Type} (choice : Nat → Bool)
    (done : String → Bool) (gameID : String) (game : γ)
    (st : EventsState (GameEvent (StatusData γ))) :
    BroadcastPersonalizedGameStatus choice done gameID game st
      = BroadcastGameEvent choice done gameID
          { EventType := "game_status", GameID := gameID,
            Data := { gameID := gameID, game := game } } st := by
  unfold BroadcastPersonalizedGameStatus BroadcastGameEvent
  rcases hlk : lookupKey st.gameSubscribers gameID with _ | subs
  · rfl
  · exact personalizedLoop_eq_broadcastLoop choice done gameID game subs 0 st []

/-! Concrete scenario states shared by witnesses and counterexamples. -/

/-- The subscriber registered in the demonstration scenarios. -/
def demoSub : GameSubscriber := { ID := "s1", GameID := "g1" }

/-- State after registering one subscriber "s1" for session "g1". -/
def demoState : EventsState Nat :=
  (CreateGameSubscriber "g1" "s1" (emptyEventsState Nat)).2

/-- State after registering "s1" for "g1" and then deregistering it once. -/
def demoOnceRemoved : EventsState Nat := RemoveGameSubscriber demoSub demoState

/-- State with "s1" watching "g1" and "s2" watching "g2". -/
def demoTwo : EventsState Nat := (CreateGameSubscriber "g2" "s2" demoState).2

/-- State with one subscriber "s1" for "g1", carrying snapshot events. -/
def demoStatusState : EventsState (GameEvent (StatusData Unit)) :=
  (CreateGameSubscriber "g1" "s1" (emptyEventsState (GameEvent (StatusData Unit)))).2

/-- One broadcast of the bare event `k` to "g1" with a live subscriber
(context not fired), keeping only the state. -/
def broadcastNat (st : EventsState Nat) (k : Nat) : EventsState Nat :=
  (BroadcastGameEvent (fun _ => true) (fun _ => false) "g1" k st).1

/-- Scenario 4 run: `n` broadcasts of the events `0, 1, ...` to "g1" with
"s1" registered and consuming nothing. -/
def scenario4 (n : Nat) : EventsState Nat :=
  (List.range n).foldl broadcastNat demoState

theorem runSysOps_registryOK {ε : Type} (ops : List (SysOp ε)) :
    registryOK (runSysOps ops) := by
  suffices h : ∀ (st : EventsState ε), registryOK st →
      registryOK (ops.foldl (fun st op => applySysOp op st) st) by
    exact h _ (by intro p hp; simp [emptyEventsState] at hp)
  induction ops with
  | nil => intro st h; exact h
  | cons op rest ih =>
    intro st h
    refine ih _ ?_
    cases op with
    | register gameID newID => exact CreateGameSubscriber_registryOK _ _ _ h
    | deregister subscriber => exact RemoveGameSubscriber_registryOK _ _ h
    | broadcast choice done gameID event =>
      intro p hp
      have heq : ((fun st op => applySysOp op st) st
            (SysOp.broadcast choice done gameID event)).gameSubscribers
          = st.gameSubscribers :=
        BroadcastGameEvent_fst_gameSubscribers _ _ _ _ _
      rw [heq] at hp
      exact h p hp

/-! Claim theorems. -/

/-- Claim C8: broadcasting to a session with no registered subscribers (key
absent from the table) returns immediately, with no change to the state and
no deregistration scheduled. -/
theorem broadcast_unknown_session_noop {ε : Type} (choice : Nat → Bool)
    (done : String → Bool) (gameID : String) (event : ε) (st : EventsState ε)
    (h : lookupKey st.gameSubscribers gameID = none) :
    BroadcastGameEvent choice done gameID event st = (st, []) := by
  unfold BroadcastGameEvent
  rw [h]

/-- Witness for C8: broadcasting to "g2", which has no subscribers in
`demoState`, leaves the state untouched. -/
theorem broadcast_unknown_session_noop_witness :
    BroadcastGameEvent (fun _ => true) (fun _ => false) "g2" (3 : Nat) demoState
      = (demoState, []) :=
  broadcast_unknown_session_noop (fun _ => true) (fun _ => false) "g2" 3
    demoState (by decide)

/-- Claim C10: neither broadcast entry point modifies the registry table or
closes a channel: the session-to-subscriber-set mapping and the close log are
exactly as found, removals being only scheduled in the returned pending
list. -/
theorem broadcast_frame_registry_unchanged {ε γ : Type} (choice : Nat → Bool)
    (done : String → Bool) (gameID : String) (event : ε) (game : γ)
    (st : EventsState ε) (stp : EventsState (GameEvent (StatusData γ))) :
    (BroadcastGameEvent choice done gameID event st).1.gameSubscribers
        = st.gameSubscribers
    ∧ (BroadcastGameEvent choice done gameID event st).1.closeLog = st.closeLog
    ∧ (BroadcastPersonalizedGameStatus choice done gameID game stp).1.gameSubscribers
        = stp.gameSubscribers
    ∧ (BroadcastPersonalizedGameStatus choice done gameID game stp).1.closeLog
        = stp.closeLog := by
  refine ⟨BroadcastGameEvent_fst_gameSubscribers _ _ _ _ _,
    BroadcastGameEvent_fst_closeLog _ _ _ _ _, ?_, ?_⟩
  · rw [BroadcastPersonalized_eq]
    exact BroadcastGameEvent_fst_gameSubscribers _ _ _ _ _
  · rw [BroadcastPersonalized_eq]
    exact BroadcastGameEvent_fst_closeLog _ _ _ _ _

/-- Counterexample to C9 as stated: the single event that
`BroadcastPersonalizedGameStatus` offers each subscriber carries the type tag
"game_status", not "status". -/
theorem personalized_event_type_not_status :
    lookupKey (BroadcastPersonalizedGameStatus (fun _ => true) (fun _ => false)
        "g1" () demoStatusState).1.channels "s1"
      = some { capacity := 10,
               buffer := [{ EventType := "game_status", GameID := "g1",
                            Data := { gameID := "g1", game := () } }] }
    ∧ "game_status" ≠ "status" := by
  exact ⟨rfl, by decide⟩

/-- Claim C9 (amended, "status" read as the code's tag "game_status"):
`BroadcastPersonalizedGameStatus` equals `BroadcastGameEvent` applied to the
one "game_status" event wrapping the snapshot — the same fan-out, the same
enqueue/skip/drop outcomes, and an event value identical for every
subscriber, with no per-subscriber personalization baked in. -/
theorem personalized_broadcast_refines_broadcast {γ : Type}
    (choice : Nat → Bool) (done : String → Bool) (gameID : String) (game : γ)
    (st : EventsState (GameEvent (StatusData γ))) :
    BroadcastPersonalizedGameStatus choice done gameID game st
      = BroadcastGameEvent choice done gameID
          { EventType := "game_status", GameID := gameID,
            Data := { gameID := gameID, game := game } } st :=
  BroadcastPersonalized_eq choice done gameID game st

/-- Claim C5: deregistering a subscriber that is no longer present (its id
absent from its session's slice, which is never stored empty) is a silent
no-op: the state — every other subscriber, every channel, the close log — is
returned unchanged. -/
theorem remove_absent_subscriber_noop {ε : Type} (subscriber : GameSubscriber)
    (st : EventsState ε)
    (h : ∀ subs, lookupKey st.gameSubscribers subscriber.GameID = some subs →
        subscriber.ID ∉ subs.map GameSubscriber.ID ∧ subs ≠ []) :
    RemoveGameSubscriber subscriber st = st := by
  unfold RemoveGameSubscriber
  split
  · rfl
  · rename_i subs hlk
    obtain ⟨hnot, hne⟩ := h subs hlk
    split
    · have h0 : ¬ subs.length = 0 := fun h0 => hne (List.length_eq_zero.mp h0)
      rw [if_neg h0]
    · rename_i remaining hrem
      rw [removeFirstByID_eq_none subscriber.ID subs hnot] at hrem
      cases hrem

/-- Witness for C5 (Scenario 6): after registering "s1" for "g1" and
deregistering it once, a second `RemoveGameSubscriber` call is the
identity. -/
theorem remove_absent_subscriber_noop_witness :
    RemoveGameSubscriber demoSub demoOnceRemoved = demoOnceRemoved :=
  remove_absent_subscriber_noop demoSub demoOnceRemoved
    (fun _ hlk => Option.noConfusion hlk)

/-- Claim C7: a broadcast to session A never enqueues onto the queue of a
subscriber registered only for a different session B — that subscriber's
channel and B's registry entry read back unchanged. -/
theorem broadcast_session_isolation {ε : Type} (choice : Nat → Bool)
    (done : String → Bool) (gameA gameB : String) (event : ε)
    (st : EventsState ε) (subB : GameSubscriber) (hne : gameB ≠ gameA)
    (hmem : subB ∈ SubscribersFor st gameB)
    (honly : subB.ID ∉ (SubscribersFor st gameA).map GameSubscriber.ID) :
    lookupKey (BroadcastGameEvent choice done gameA event st).1.channels subB.ID
      = lookupKey st.channels subB.ID
    ∧ lookupKey (BroadcastGameEvent choice done gameA event st).1.gameSubscribers
        gameB
      = lookupKey st.gameSubscribers gameB := by
  constructor
  · unfold BroadcastGameEvent
    split
    · rfl
    · rename_i subs hlk
      have hsubs : SubscribersFor st gameA = subs := by
        simp [SubscribersFor, hlk]
      rw [hsubs] at honly
      exact broadcastLoop_channels_notin choice done event subs subB.ID honly
        0 st []
  · rw [BroadcastGameEvent_fst_gameSubscribers]

/-- Witness for C7: broadcasting to "g1" in the two-session state leaves
"s2"'s channel and "g2"'s registry entry unchanged. -/
theorem broadcast_session_isolation_witness :
    lookupKey (BroadcastGameEvent (fun _ => true) (fun _ => false) "g1"
        (5 : Nat) demoTwo).1.channels "s2"
      = lookupKey demoTwo.channels "s2"
    ∧ lookupKey (BroadcastGameEvent (fun _ => true) (fun _ => false) "g1"
        (5 : Nat) demoTwo).1.gameSubscribers "g2"
      = lookupKey demoTwo.gameSubscribers "g2" :=
  broadcast_session_isolation (fun _ => true) (fun _ => false) "g1" "g2" 5
    demoTwo { ID := "s2", GameID := "g2" } (by decide) (by decide) (by decide)

/-- Claim C3: after any finite sequence of Register / Deregister calls from
the empty registry, a session key is present in the table exactly when its
subscriber set is non-empty (a removal that empties a set deletes the key at
once, so no empty set is ever left behind). -/
theorem registry_key_iff_nonempty {ε : Type} (ops : List (SysOp ε))
    (hreg : ∀ op ∈ ops, isRegistryOp op = true) (gameID : String) :
    lookupKey (runSysOps ops).gameSubscribers gameID ≠ none ↔
      SubscribersFor (runSysOps ops) gameID ≠ [] := by
  constructor
  · intro h
    rcases hsome : lookupKey (runSysOps ops).gameSubscribers gameID
      with _ | subs
    · exact absurd hsome h
    · have hmem : (gameID, subs) ∈ (runSysOps ops).gameSubscribers :=
        lookupKey_mem _ _ _ hsome
      have hnonempty := runSysOps_registryOK ops (gameID, subs) hmem
      simpa [SubscribersFor, hsome] using hnonempty
  · intro h hnone
    simp [SubscribersFor, hnone] at h

/-- Witness for C3: after registering "s1" for "g1" and deregistering it,
the equivalence holds at "g1" (both sides false: the key was deleted when the
set emptied). -/
theorem registry_key_iff_nonempty_witness :
    lookupKey (runSysOps [SysOp.register (ε := Nat) "g1" "s1",
        SysOp.deregister demoSub]).gameSubscribers "g1" ≠ none ↔
      SubscribersFor (runSysOps [SysOp.register (ε := Nat) "g1" "s1",
        SysOp.deregister demoSub]) "g1" ≠ [] :=
  registry_key_iff_nonempty _ (by decide) "g1"

/-- Claim C2: every subscriber's queue is created with fixed capacity 10; in
every state reachable by register / deregister / broadcast calls no channel
holds more than 10 undelivered events; and in Scenario 4 (11 broadcasts to
"g1" with "s1" consuming nothing) the queue holds exactly the first 10
events, the 11th broadcast changes nothing and schedules nothing — the call
still returns normally. -/
theorem queue_capacity_bounded :
    (∀ (ε : Type) (gameID newID : String) (st : EventsState ε),
        lookupKey (CreateGameSubscriber gameID newID st).2.channels newID
          = some { capacity := 10, buffer := [] })
    ∧ (∀ (ε : Type) (ops : List (SysOp ε)) (p : String × BufChan ε),
        p ∈ (runSysOps ops).channels →
          p.2.capacity = 10 ∧ p.2.buffer.length ≤ 10)
    ∧ lookupKey (scenario4 11).channels "s1"
        = some { capacity := 10, buffer := [0, 1, 2, 3, 4, 5, 6, 7, 8, 9] }
    ∧ scenario4 11 = scenario4 10
    ∧ (BroadcastGameEvent (fun _ => true) (fun _ => false) "g1" 10
        (scenario4 10)).2 = [] := by
  refine ⟨?_, ?_, ?_, ?_, ?_⟩
  · intro ε gameID newID st
    exact lookupKey_setKey_self _ _ _
  · intro ε ops p hp
    have h := runSysOps_channelsOK ops p hp
    exact ⟨h.1, h.1 ▸ h.2⟩
  · decide
  · decide
  · decide

/-- Witness for C2: the channel created by registering "s1" sits in the
reachable state with capacity 10 and an empty, in-bound buffer. -/
theorem queue_capacity_bounded_witness :
    (("s1", ({ capacity := 10, buffer := [] } : BufChan Nat))).2.capacity = 10
    ∧ (("s1", ({ capacity := 10, buffer := [] } : BufChan Nat))).2.buffer.length
        ≤ 10 :=
  queue_capacity_bounded.2.1 Nat [SysOp.register "g1" "s1"]
    ("s1", { capacity := 10, buffer := [] }) (by decide)

/-- Counterexample to C4 as stated: with "s1" the sole (cancelled) subscriber
of "g1" and its queue empty, one Broadcast call may — per Go's select, here
resolved toward the ready send — deliver the event instead: when the call
returns, the subscriber is still in the table, no queue was closed, and no
deregistration was even scheduled. -/
theorem cancelled_sole_subscriber_not_removed_inline :
    (BroadcastGameEvent (fun _ => true) (fun _ => true) "g1" (0 : Nat)
        demoState).1.gameSubscribers = [("g1", [demoSub])]
    ∧ (BroadcastGameEvent (fun _ => true) (fun _ => true) "g1" (0 : Nat)
        demoState).1.closeLog = []
    ∧ (BroadcastGameEvent (fun _ => true) (fun _ => true) "g1" (0 : Nat)
        demoState).2 = []
    ∧ SubscribersFor (BroadcastGameEvent (fun _ => true) (fun _ => true) "g1"
        (0 : Nat) demoState).1 "g1" = [demoSub] := by
  decide

/-- Claim C4 (amended): if the sole subscriber "s1" of "g1" has its
cancellation signal fired and the broadcast's select resolves the
cancellation branch, the Broadcast call schedules (but does not perform
inline) the deregistration; once the scheduled RemoveGameSubscriber task
runs, the subscriber is removed, its queue has been closed exactly once,
SubscribersFor "g1" is empty and the session key is absent from the table. -/
theorem cancellation_convergence_after_scheduled_removal {ε : Type}
    (event : ε) :
    (BroadcastGameEvent (fun _ => false) (fun _ => true) "g1" event
        (CreateGameSubscriber "g1" "s1" (emptyEventsState ε)).2).2
      = [{ ID := "s1", GameID := "g1" }]
    ∧ (BroadcastGameEvent (fun _ => false) (fun _ => true) "g1" event
        (CreateGameSubscriber "g1" "s1" (emptyEventsState ε)).2).1.gameSubscribers
      = (CreateGameSubscriber "g1" "s1" (emptyEventsState ε)).2.gameSubscribers
    ∧ SubscribersFor (RemoveGameSubscriber { ID := "s1", GameID := "g1" }
        (BroadcastGameEvent (fun _ => false) (fun _ => true) "g1" event
          (CreateGameSubscriber "g1" "s1" (emptyEventsState ε)).2).1) "g1" = []
    ∧ lookupKey (RemoveGameSubscriber { ID := "s1", GameID := "g1" }
        (BroadcastGameEvent (fun _ => false) (fun _ => true) "g1" event
          (CreateGameSubscriber "g1" "s1"
            (emptyEventsState ε)).2).1).gameSubscribers "g1" = none
    ∧ (RemoveGameSubscriber { ID := "s1", GameID := "g1" }
        (BroadcastGameEvent (fun _ => false) (fun _ => true) "g1" event
          (CreateGameSubscriber "g1" "s1"
            (emptyEventsState ε)).2).1).closeLog.count "s1" = 1 := by
  exact ⟨rfl, rfl, rfl, rfl, rfl⟩

/-- Counterexample to C1 as stated ("whenever the cancellation signal has
fired, delivery is skipped"): with the signal fired and the queue empty, a
Go-legal resolution of the select enqueues the event onto the cancelled
subscriber's queue and schedules no deregistration. -/
theorem cancellation_fired_but_event_delivered :
    (BroadcastGameEvent (fun _ => true) (fun _ => true) "g1" (7 : Nat)
        demoState).2 = []
    ∧ lookupKey (BroadcastGameEvent (fun _ => true) (fun _ => true) "g1"
        (7 : Nat) demoState).1.channels "s1"
      = some { capacity := 10, buffer := [7] } := by
  decide

/-- Claim C1 (amended): one Broadcast call performs, for each subscriber of
the session, exactly one of three non-blocking outcomes: (a) the event is
appended to its queue — possible only with free capacity; (b) asynchronous
deregistration is scheduled and delivery skipped — possible only with the
cancellation signal fired, and guaranteed whenever the signal has fired and
the queue is full; (c) the event is silently dropped — only when the queue is
full and the signal has not fired.  When the signal has fired while the
queue also has free capacity, Go's select resolves uniformly at random
between (a) and (b), so delivery is not necessarily skipped then (see the
counterexample); the original claim's unconditional "whenever the signal has
fired, delivery is skipped" holds only under a full queue. -/
theorem broadcast_per_subscriber_trichotomy {ε : Type} (choice : Nat → Bool)
    (done : String → Bool) (gameID : String) (event : ε) (st : EventsState ε)
    (subs : List GameSubscriber)
    (hlk : lookupKey st.gameSubscribers gameID = some subs)
    (hnd : (subs.map GameSubscriber.ID).Nodup) (i : Nat)
    (sub : GameSubscriber) (hsub : subs[i]? = some sub) (ch : BufChan ε)
    (hch : lookupKey st.channels sub.ID = some ch) :
    ((lookupKey (BroadcastGameEvent choice done gameID event st).1.channels
          sub.ID
        = some { capacity := ch.capacity, buffer := ch.buffer ++ [event] }
      ∧ sub ∉ (BroadcastGameEvent choice done gameID event st).2
      ∧ ch.buffer.length < ch.capacity)
    ∨ (lookupKey (BroadcastGameEvent choice done gameID event st).1.channels
          sub.ID
        = some ch
      ∧ sub ∈ (BroadcastGameEvent choice done gameID event st).2
      ∧ done sub.ID = true)
    ∨ (lookupKey (BroadcastGameEvent choice done gameID event st).1.channels
          sub.ID
        = some ch
      ∧ sub ∉ (BroadcastGameEvent choice done gameID event st).2
      ∧ ¬ ch.buffer.length < ch.capacity ∧ done sub.ID = false))
    ∧ (done sub.ID = true → ¬ ch.buffer.length < ch.capacity →
        lookupKey (BroadcastGameEvent choice done gameID event st).1.channels
            sub.ID
          = some ch
        ∧ sub ∈ (BroadcastGameEvent choice done gameID event st).2) := by
  have hbe : BroadcastGameEvent choice done gameID event st
      = broadcastLoop choice done event subs 0 st [] := by
    unfold BroadcastGameEvent
    rw [hlk]
  have key := broadcastLoop_get choice done event subs hnd i sub hsub 0 st []
    ch hch
  rw [Nat.zero_add] at key
  obtain ⟨kch, kpend⟩ := key
  have kpend2 : sub ∈ (broadcastLoop choice done event subs 0 st []).2 ↔
      (selectStep (choice i) (done sub.ID) event ch).2 = true := by
    rw [kpend]
    simp
  rw [hbe]
  constructor
  · rcases selectStep_cases (choice i) (done sub.ID) event ch with
      ⟨hs, hr⟩ | ⟨hd, hr⟩ | ⟨hs, hd, hr⟩
    · refine Or.inl ⟨?_, ?_, hs⟩
      · rw [kch, hr]
      · rw [kpend2, hr]
        simp
    · refine Or.inr (Or.inl ⟨?_, ?_, hd⟩)
      · rw [kch, hr]
      · rw [kpend2, hr]
    · refine Or.inr (Or.inr ⟨?_, ?_, hs, hd⟩)
      · rw [kch, hr]
      · rw [kpend2, hr]
        simp
  · intro hdone hfull
    have hr := selectStep_done_full (choice i) event ch hfull
    constructor
    · rw [kch, hdone, hr]
    · rw [kpend2, hdone, hr]

/-- Witness for C1: in the Scenario-4 end state ("s1" registered for "g1"
with a full queue) and the cancellation signal fired, the broadcast leaves
the full queue unchanged and schedules the deregistration of "s1". -/
theorem broadcast_per_subscriber_trichotomy_witness :
    lookupKey (BroadcastGameEvent (fun _ => true) (fun _ => true) "g1"
        (99 : Nat) (scenario4 11)).1.channels demoSub.ID
      = some { capacity := 10, buffer := [0, 1, 2, 3, 4, 5, 6, 7, 8, 9] }
    ∧ demoSub ∈ (BroadcastGameEvent (fun _ => true) (fun _ => true) "g1"
        (99 : Nat) (scenario4 11)).2 :=
  (broadcast_per_subscriber_trichotomy (fun _ => true) (fun _ => true) "g1" 99
      (scenario4 11) [demoSub] (by decide) (by decide) 0 demoSub (by decide)
      { capacity := 10, buffer := [0, 1, 2, 3, 4, 5, 6, 7, 8, 9] }
      (by decide)).2 rfl (by decide)

end GameEvents
